import Mathlib

/-!
Verification of `cook_book.py`: a line-oriented recipe-catalog parser
(`read_cook_book`), a shopping-list aggregator (`get_shop_list_by_dishes`)
and a directory merger (`merge_files`).

The embedding models a text stream as the list of its lines (without the
trailing newline characters); `file.readline()` on an exhausted stream
returns the empty string, exactly as Python does at end of file.
Python dictionaries are modelled as association lists in insertion order:
updating an existing key keeps its position, inserting a fresh key appends
at the end, which is Python's observable dict ordering.
-/

namespace CookBook

/-- An ingredient record as built at lines 38-42 of `cook_book.py`:
`{'ingredient_name': ..., 'quantity': ..., 'measure': ...}`.
Python integers are unbounded, so `quantity` is `Int`. -/
structure Ingredient where
  ingredient_name : String
  quantity : Int
  measure : String
deriving Repr, DecidableEq

/-- The cook book: dish name to ingredient list, in insertion order. -/
abbrev Catalog := List (String × List Ingredient)

/-- A shopping-list entry as built at line 73 of `cook_book.py`:
`{'measure': measure, 'quantity': quantity}`. -/
structure ShopEntry where
  measure : String
  quantity : Int
deriving Repr, DecidableEq

/-- The shopping list: ingredient name to entry, in insertion order. -/
abbrev ShopList := List (String × ShopEntry)

/-- First-match lookup in an association list: Python's `d[k]` / `k in d`
for a dict represented in insertion order with unique keys. -/
def lookupList {β : Type} : List (String × β) → String → Option β
  | [], _ => none
  | (k, v) :: rest, name => if k = name then some v else lookupList rest name

/-- `file.readline()` on the remaining lines: pops the next line, or
returns `""` at end of stream (Python returns `""` at EOF). -/
def readline : List String → String × List String
  | [] => ("", [])
  | l :: ls => (l, ls)

/-- Python's `str.strip()` on ASCII input: whitespace removed from both
ends (the library `String.trim` is not kernel-reducible, so the same
operation is spelled out on the character list). -/
def pyStrip (s : String) : String :=
  ⟨((s.data.dropWhile Char.isWhitespace).reverse.dropWhile Char.isWhitespace).reverse⟩

/-- If `sep` starts the character list, the remainder after it. -/
def stripLead : List Char → List Char → Option (List Char)
  | [], cs => some cs
  | _ :: _, [] => none
  | p :: ps, c :: cs => if c = p then stripLead ps cs else none

/-- Left-to-right scan splitting on non-overlapping occurrences of `sep`,
as Python's `str.split(sep)` does; the fuel (any value above the input
length) only makes the recursion structural. -/
def splitToks (sep : List Char) : Nat → List Char → List (List Char)
  | 0, _ => [[]]
  | _ + 1, [] => [[]]
  | fuel + 1, c :: cs =>
    match stripLead sep (c :: cs) with
    | some rest => [] :: splitToks sep fuel rest
    | none =>
      match splitToks sep fuel cs with
      | [] => [[c]]
      | t :: ts => (c :: t) :: ts

/-- Python's `s.split(sep)` for a nonempty separator. -/
def pySplit (sep : String) (s : String) : List String :=
  (splitToks sep.data (s.data.length + 1) s.data).map (fun cs => ⟨cs⟩)

/-- Digit run as accepted by Python `int()` after the first digit:
an underscore must be followed by a digit (PEP 515). -/
def digitsCore : List Char → Bool
  | [] => true
  | '_' :: [] => false
  | '_' :: c :: cs => c.isDigit && digitsCore cs
  | c :: cs => c.isDigit && digitsCore cs

/-- Nonempty digit run, underscores allowed only between digits. -/
def pyDigits : List Char → Bool
  | [] => false
  | c :: cs => c.isDigit && digitsCore cs

/-- Numeric value of a digit run (underscores skipped). -/
def digitsToNat (cs : List Char) : Nat :=
  (cs.filter (fun c => c != '_')).foldl (fun a c => a * 10 + (c.toNat - '0'.toNat)) 0

/-- Python's `int(s)` on ASCII input: surrounding whitespace stripped, an
optional single `+`/`-` sign, then a nonempty digit run with optional
single underscores between digits; `none` models the `ValueError`. -/
def parseIntPy (s : String) : Option Int :=
  match (pyStrip s).data with
  | '+' :: rest => if pyDigits rest then some (digitsToNat rest : Int) else none
  | '-' :: rest => if pyDigits rest then some (-(digitsToNat rest : Int)) else none
  | cs => if pyDigits cs then some (digitsToNat cs : Int) else none

/-- Decidable equality for `Except`, so concrete parses can be checked
by `decide`. -/
def exceptDecEq {α β : Type} [DecidableEq α] [DecidableEq β] : DecidableEq (Except α β)
  | .error a, .error b =>
    if h : a = b then .isTrue (h ▸ rfl) else .isFalse (fun hc => h (Except.error.inj hc))
  | .error _, .ok _ => .isFalse (fun hc => Except.noConfusion hc)
  | .ok _, .error _ => .isFalse (fun hc => Except.noConfusion hc)
  | .ok a, .ok b =>
    if h : a = b then .isTrue (h ▸ rfl) else .isFalse (fun hc => h (Except.ok.inj hc))

instance {α β : Type} [DecidableEq α] [DecidableEq β] : DecidableEq (Except α β) :=
  exceptDecEq

/-- The structured content of the `ValueError` messages raised by
`read_cook_book` (lines 23, 29, 32, 37 of `cook_book.py`); each
constructor records the dish and/or ingredient the message names. -/
inductive FormatError where
  /-- Line 23: the ingredient-count line is not an integer. -/
  | badCount (dish : String)
  /-- Line 29: blank line or end of stream inside the declared N lines. -/
  | missingIngredient (dish : String)
  /-- Line 32: the ingredient line does not split into exactly 3 fields. -/
  | badFormat (dish : String) (line : String)
  /-- Line 37: the quantity field is not an integer. -/
  | badIngredientQuantity (ingredient : String) (dish : String)
deriving Repr, DecidableEq

/-- The dish named by a `FormatError` message. -/
def FormatError.dishName : FormatError → String
  | .badCount dish => dish
  | .missingIngredient dish => dish
  | .badFormat dish _ => dish
  | .badIngredientQuantity _ dish => dish

/-- The `for _ in range(ingredient_count)` loop (lines 26-42): reads the
declared number of ingredient lines, returning them together with the
rest of the stream, or the first `ValueError` raised. -/
def parseIngredients (dish : String) : Nat → List String → Except FormatError (List Ingredient × List String)
  | 0, stream => .ok ([], stream)
  | n + 1, stream =>
    let (lineRaw, rest) := readline stream
    let ingredient_line := pyStrip lineRaw
    if ingredient_line = "" then .error (.missingIngredient dish)
    else
      match pySplit " | " ingredient_line with
      | [ingredient_name, quantity_str, measure] =>
        match parseIntPy quantity_str with
        | none => .error (.badIngredientQuantity ingredient_name dish)
        | some quantity =>
          match parseIngredients dish n rest with
          | .error e => .error e
          | .ok (ings, rest') => .ok (⟨ingredient_name, quantity, measure⟩ :: ings, rest')
      | _ => .error (.badFormat dish ingredient_line)

/-- `cook_book[dish_name] = ingredients`: dict assignment, overwriting in
place if the key exists, appending otherwise. -/
def insertDish : Catalog → String → List Ingredient → Catalog
  | [], dish, ings => [(dish, ings)]
  | (k, v) :: rest, dish, ings =>
    if k = dish then (k, ings) :: rest else (k, v) :: insertDish rest dish ings

/-- The `while True` loop of `read_cook_book` (lines 16-44), with explicit
fuel to make the recursion structural; each iteration consumes at least
two lines, so any fuel above the stream length behaves identically.
An empty stream or a blank dish-name line ends parsing normally.  When
the count line is absent, `readline` yields `""` and `int("")` raises,
which is the `badCount` error, exactly as in the source.
A negative declared count makes `range(n)` empty, hence `Int.toNat`. -/
def readLoop : Nat → Catalog → List String → Except FormatError Catalog
  | 0, acc, _ => .ok acc
  | _ + 1, acc, [] => .ok acc
  | fuel + 1, acc, line :: rest =>
    let dish_name := pyStrip line
    if dish_name = "" then .ok acc
    else
      match rest with
      | [] => .error (.badCount dish_name)
      | countLine :: rest2 =>
        match parseIntPy countLine with
        | none => .error (.badCount dish_name)
        | some n =>
          match parseIngredients dish_name n.toNat rest2 with
          | .error e => .error e
          | .ok (ings, rest3) =>
            readLoop fuel (insertDish acc dish_name ings) (readline rest3).2

/-- `read_cook_book` on the lines of the source file.  The Python
function's outer handler re-raises any inner `ValueError` wrapped with
the file path while keeping the inner message, so the structured error
is surfaced unchanged; the error value is the whole observable outcome
(the `return cook_book` at line 50 is never reached on error). -/
def read_cook_book (lines : List String) : Except FormatError Catalog :=
  readLoop (lines.length + 1) [] lines

/-- `shop_list[name]['quantity'] += quantity` (line 71): in-place update
of the first (unique) entry with the given key. -/
def bumpQuantity : ShopList → String → Int → ShopList
  | [], _, _ => []
  | (k, e) :: rest, name, q =>
    if k = name then (k, ⟨e.measure, e.quantity + q⟩) :: rest
    else (k, e) :: bumpQuantity rest name q

/-- The per-ingredient body of the aggregator loop (lines 66-73). -/
def addIngredient (person_count : Int) (shop_list : ShopList) (ingredient : Ingredient) : ShopList :=
  let quantity := ingredient.quantity * person_count
  if (lookupList shop_list ingredient.ingredient_name).isSome then
    bumpQuantity shop_list ingredient.ingredient_name quantity
  else
    shop_list ++ [(ingredient.ingredient_name, ⟨ingredient.measure, quantity⟩)]

/-- The per-dish body of the aggregator loop (lines 62-73); the printed
diagnostic for a missing dish (line 64) is recorded in the second
component. -/
def processDish (person_count : Int) (cook_book : Catalog) (st : ShopList × List String) (dish : String) : ShopList × List String :=
  match lookupList cook_book dish with
  | none => (st.1, st.2 ++ [dish])
  | some ings => (ings.foldl (addIngredient person_count) st.1, st.2)

/-- `get_shop_list_by_dishes` (lines 52-74); the first component is the
returned dict, the second the list of dishes a diagnostic was printed
for. -/
def get_shop_list_by_dishes (dishes : List String) (person_count : Int) (cook_book : Catalog) : ShopList × List String :=
  dishes.foldl (processDish person_count cook_book) ([], [])

/-- Total quantity recorded in a shopping list for a name (0 if absent). -/
def shopQuantity (shop_list : ShopList) (name : String) : Int :=
  match lookupList shop_list name with
  | some e => e.quantity
  | none => 0

/-- Measure recorded in a shopping list for a name, if present. -/
def shopMeasure (shop_list : ShopList) (name : String) : Option String :=
  (lookupList shop_list name).map ShopEntry.measure

/-- Total quantity a recipe's ingredient list carries for a name. -/
def recipeQuantity (ings : List Ingredient) (name : String) : Int :=
  ((ings.filter (fun i => i.ingredient_name = name)).map Ingredient.quantity).sum

/-- Measure of the first ingredient with a given name, if any. -/
def firstMeasure (ings : List Ingredient) (name : String) : Option String :=
  (ings.find? (fun i => i.ingredient_name = name)).map Ingredient.measure

/-- A low-level failure of one file operation inside `merge_files`:
either Python's `FileNotFoundError` (raised by `os.listdir` on a missing
directory, but equally by `open` when a path's directory is missing), or
any other `Exception`, carried with its message. -/
inductive IOFailure where
  | fileNotFound
  | other (msg : String)
deriving Repr, DecidableEq

/-- The errors `merge_files` surfaces: the re-raised `FileNotFoundError`
naming the directory (line 102) and the wrapping `ValueError` (line 104),
which the specification calls `NotFoundError` and `IOError`. -/
inductive MergeError where
  | notFound (dir : String)
  | ioError (msg : String)
deriving Repr, DecidableEq

/-- The file system visible to one `merge_files` call: directory
existence, `os.listdir` enumeration order, the `os.path.isfile` test,
the outcome of reading a file's lines, and the outcome of opening and
writing the output path. -/
structure FS where
  dirExists : String → Bool
  listing : String → List String
  isFile : String → Bool
  readResult : String → Except IOFailure (List String)
  writeResult : String → Option IOFailure

/-- The enumeration-and-read loop of `merge_files` (lines 86-92):
`os.path.join` of a directory without trailing slash, skipping
non-regular files, collecting `(filename, lines)` in listing order
(`os.listdir` yields distinct names, so the `files_info` dict keeps
exactly this order). -/
def collectFiles (fs : FS) (directory : String) : List String → Except IOFailure (List (String × List String))
  | [] => .ok []
  | filename :: rest =>
    let file_path := directory ++ "/" ++ filename
    if fs.isFile file_path then
      match fs.readResult file_path with
      | .error e => .error e
      | .ok lines =>
        match collectFiles fs directory rest with
        | .error e => .error e
        | .ok files => .ok ((filename, lines) :: files)
    else collectFiles fs directory rest

/-- The sort key of line 94: ascending number of lines. -/
def lenLe (a b : String × List String) : Prop :=
  a.2.length ≤ b.2.length

instance : DecidableRel lenLe :=
  fun a b => inferInstanceAs (Decidable (a.2.length ≤ b.2.length))

instance : IsTotal (String × List String) lenLe :=
  ⟨fun a b => Nat.le_total a.2.length b.2.length⟩

instance : IsTrans (String × List String) lenLe :=
  ⟨fun _ _ _ => Nat.le_trans⟩

/-- The output lines written at lines 97-100: per record the filename,
its line count, then its lines verbatim.  `Python's `sorted` is stable;
a stable sort by one key is unique, so insertion sort denotes it. -/
def renderBlocks (files : List (String × List String)) : List String :=
  files.flatMap (fun fr => fr.1 :: toString fr.2.length :: fr.2)

/-- The body of the `try` block of `merge_files` (lines 84-100), with
each raw failure propagated before the `except` clauses translate it. -/
def mergeCore (fs : FS) (directory output_file : String) : Except IOFailure (List String) :=
  if fs.dirExists directory then
    match collectFiles fs directory (fs.listing directory) with
    | .error e => .error e
    | .ok files_info =>
      match fs.writeResult output_file with
      | some e => .error e
      | none => .ok (renderBlocks (List.insertionSort lenLe files_info))
  else .error .fileNotFound

/-- `merge_files` (lines 76-104): any `FileNotFoundError` from the body
is re-raised as the not-found error naming the directory, any other
failure is wrapped into the `ValueError` of line 104. -/
def merge_files (fs : FS) (directory output_file : String) : Except MergeError (List String) :=
  match mergeCore fs directory output_file with
  | .ok out => .ok out
  | .error .fileNotFound => .error (.notFound directory)
  | .error (.other msg) => .error (.ioError msg)

/-!
A second, heap-explicit embedding of `get_shop_list_by_dishes`, used to
settle the frame claim: Python dicts are mutable objects, so the catalog
holds references to ingredient records, and the only mutation the
aggregator performs (`shop_list[name]['quantity'] += q`, line 71) is a
write through a reference held in `shop_list`.  Here the object heap is
explicit: records live at addresses, the catalog maps each dish to the
addresses of its ingredient records, and line 73's dict literal is an
allocation of a fresh record.
-/

/-- A mutable record object (the fields of either dict shape). -/
structure RecordV where
  iname : String
  quantity : Int
  measure : String
deriving Repr, DecidableEq

/-- The object heap: contents of every address, and the next fresh one. -/
structure Heap where
  mem : Nat → RecordV
  next : Nat

/-- Update the record at an existing address. -/
def Heap.write (h : Heap) (a : Nat) (r : RecordV) : Heap :=
  ⟨fun x => if x = a then r else h.mem x, h.next⟩

/-- Allocate a fresh record, returning the new heap and its address. -/
def Heap.alloc (h : Heap) (r : RecordV) : Heap × Nat :=
  (⟨fun x => if x = h.next then r else h.mem x, h.next + 1⟩, h.next)

/-- The catalog by reference: dish name to ingredient-record addresses. -/
abbrev CatalogRef := List (String × List Nat)

/-- The shopping list by reference: ingredient name to entry address. -/
abbrev ShopRef := List (String × Nat)

/-- Lines 66-73 on the explicit heap: read the ingredient record, then
either write the incremented quantity through the existing shop-list
reference, or allocate a fresh entry record and append its address. -/
def addIngredientRef (person_count : Int) (st : Heap × ShopRef) (addr : Nat) : Heap × ShopRef :=
  let h := st.1
  let r := h.mem addr
  let quantity := r.quantity * person_count
  match lookupList st.2 r.iname with
  | some ea =>
    (h.write ea ⟨(h.mem ea).iname, (h.mem ea).quantity + quantity, (h.mem ea).measure⟩, st.2)
  | none =>
    let ha := h.alloc ⟨r.iname, quantity, r.measure⟩
    (ha.1, st.2 ++ [(r.iname, ha.2)])

/-- Lines 62-73 on the explicit heap (the diagnostic print is dropped:
it does not touch the heap). -/
def processDishRef (person_count : Int) (cb : CatalogRef) (st : Heap × ShopRef) (dish : String) : Heap × ShopRef :=
  match lookupList cb dish with
  | none => st
  | some addrs => addrs.foldl (addIngredientRef person_count) st

/-- `get_shop_list_by_dishes` on the explicit heap: the result is the
final heap and the shop list of entry addresses. -/
def get_shop_list_ref (dishes : List String) (person_count : Int) (cb : CatalogRef) (h : Heap) : Heap × ShopRef :=
  dishes.foldl (processDishRef person_count cb) (h, [])

/-- A one-record heap for exercising the frame theorem. -/
def demoHeap : Heap :=
  ⟨fun _ => ⟨"salt", 2, "g"⟩, 1⟩

/-- A directory of three regular files with 5, 1 and 3 lines, reads and
the output write all succeeding. -/
def demoFS : FS where
  dirExists := fun d => d == "files"
  listing := fun _ => ["big.txt", "one.txt", "mid.txt"]
  isFile := fun _ => true
  readResult := fun p =>
    if p == "files/big.txt" then .ok ["b1", "b2", "b3", "b4", "b5"]
    else if p == "files/one.txt" then .ok ["o1"]
    else if p == "files/mid.txt" then .ok ["m1", "m2", "m3"]
    else .error .fileNotFound
  writeResult := fun _ => none

/-- An existing, empty directory, but an output path whose own directory
does not exist, so `open(output_file, 'w')` raises `FileNotFoundError`
(deterministically reproducible: `merge_files('files', 'missing/out.txt')`
with `files/` present and `missing/` absent). -/
def badOutputFS : FS where
  dirExists := fun d => d == "files"
  listing := fun _ => []
  isFile := fun _ => false
  readResult := fun _ => .error (.other "unused")
  writeResult := fun _ => some .fileNotFound

/-! ### Lemmas about the aggregator -/

theorem lookupList_append {β : Type} (l1 l2 : List (String × β)) (name : String) :
    lookupList (l1 ++ l2) name =
      (match lookupList l1 name with
       | some v => some v
       | none => lookupList l2 name) := by
  induction l1 with
  | nil => simp [lookupList]
  | cons kv rest ih =>
    obtain ⟨k, v⟩ := kv
    simp only [List.cons_append, lookupList]
    by_cases h : k = name
    · simp [h]
    · simp [h, ih]

theorem lookupList_bumpQuantity (sl : ShopList) (n : String) (q : Int) (name : String) :
    lookupList (bumpQuantity sl n q) name =
      (if n = name then
        (lookupList sl name).map (fun e => ⟨e.measure, e.quantity + q⟩)
      else lookupList sl name) := by
  induction sl with
  | nil => simp [bumpQuantity, lookupList]
  | cons kv rest ih =>
    obtain ⟨k, e⟩ := kv
    simp only [bumpQuantity]
    by_cases hk : k = n
    · rw [if_pos hk]
      by_cases hn : k = name
      · simp only [lookupList, if_pos hn, hk.symm.trans hn, if_pos]
        simp
      · simp only [lookupList, if_neg hn, if_neg (fun h => hn (hk.trans h))]
    · rw [if_neg hk]
      simp only [lookupList]
      by_cases hn : k = name
      · rw [if_pos hn, if_pos hn, if_neg (fun h => hk (hn.trans h.symm))]
      · rw [if_neg hn, if_neg hn, ih]

theorem lookupList_addIngredient (pc : Int) (sl : ShopList) (ing : Ingredient) (name : String) :
    lookupList (addIngredient pc sl ing) name =
      (match lookupList sl name with
       | some e =>
         some (if ing.ingredient_name = name then
           ⟨e.measure, e.quantity + ing.quantity * pc⟩ else e)
       | none =>
         if ing.ingredient_name = name then
           some ⟨ing.measure, ing.quantity * pc⟩ else none) := by
  unfold addIngredient
  by_cases hs : (lookupList sl ing.ingredient_name).isSome
  · simp only [hs, if_true, lookupList_bumpQuantity]
    by_cases hn : ing.ingredient_name = name
    · subst hn
      obtain ⟨e, he⟩ := Option.isSome_iff_exists.mp hs
      simp [he]
    · simp only [hn, if_neg]
      cases lookupList sl name <;> simp [hn]
  · simp only [hs, if_false, Bool.false_eq_true, lookupList_append]
    have hnone : lookupList sl ing.ingredient_name = none := by
      cases h : lookupList sl ing.ingredient_name
      · rfl
      · rw [h] at hs; simp at hs
    by_cases hn : ing.ingredient_name = name
    · subst hn
      simp [hnone, lookupList]
    · cases h : lookupList sl name <;> simp [lookupList, hn]

theorem shopQuantity_addIngredient (pc : Int) (sl : ShopList) (ing : Ingredient) (name : String) :
    shopQuantity (addIngredient pc sl ing) name =
      shopQuantity sl name +
        (if ing.ingredient_name = name then ing.quantity * pc else 0) := by
  unfold shopQuantity
  rw [lookupList_addIngredient]
  cases lookupList sl name <;> by_cases hn : ing.ingredient_name = name <;> simp [hn]

theorem shopMeasure_addIngredient (pc : Int) (sl : ShopList) (ing : Ingredient) (name : String) :
    shopMeasure (addIngredient pc sl ing) name =
      (match shopMeasure sl name with
       | some m => some m
       | none => if ing.ingredient_name = name then some ing.measure else none) := by
  unfold shopMeasure
  rw [lookupList_addIngredient]
  cases lookupList sl name <;> by_cases hn : ing.ingredient_name = name <;> simp [hn]

theorem recipeQuantity_nil (name : String) : recipeQuantity [] name = 0 := by
  simp [recipeQuantity]

theorem recipeQuantity_cons (i : Ingredient) (tl : List Ingredient) (name : String) :
    recipeQuantity (i :: tl) name =
      (if i.ingredient_name = name then i.quantity else 0) + recipeQuantity tl name := by
  unfold recipeQuantity
  by_cases h : i.ingredient_name = name <;> simp [List.filter_cons, h]

theorem firstMeasure_cons (i : Ingredient) (tl : List Ingredient) (name : String) :
    firstMeasure (i :: tl) name =
      (if i.ingredient_name = name then some i.measure else firstMeasure tl name) := by
  unfold firstMeasure
  by_cases h : i.ingredient_name = name <;> simp [List.find?_cons, h]

theorem shopQuantity_fold (pc : Int) (ings : List Ingredient) (sl : ShopList) (name : String) :
    shopQuantity (ings.foldl (addIngredient pc) sl) name =
      shopQuantity sl name + recipeQuantity ings name * pc := by
  induction ings generalizing sl with
  | nil => simp [recipeQuantity_nil]
  | cons i tl ih =>
    rw [List.foldl_cons, ih, shopQuantity_addIngredient, recipeQuantity_cons]
    by_cases h : i.ingredient_name = name
    · simp only [h, if_pos]
      ring
    · simp [h]

theorem shopMeasure_fold (pc : Int) (ings : List Ingredient) (sl : ShopList) (name : String) :
    shopMeasure (ings.foldl (addIngredient pc) sl) name =
      (match shopMeasure sl name with
       | some m => some m
       | none => firstMeasure ings name) := by
  induction ings generalizing sl with
  | nil =>
    simp only [List.foldl_nil]
    cases h : shopMeasure sl name <;> simp [h, firstMeasure]
  | cons i tl ih =>
    rw [List.foldl_cons, ih, shopMeasure_addIngredient, firstMeasure_cons]
    cases hm : shopMeasure sl name <;> by_cases hn : i.ingredient_name = name <;>
      simp [hm, hn]

theorem shopQuantity_foldDishes (pc : Int) (cb : Catalog) (dishes : List String) (st : ShopList × List String) (name : String) :
    shopQuantity (dishes.foldl (processDish pc cb) st).1 name =
      shopQuantity st.1 name +
        (dishes.map (fun dish =>
          match lookupList cb dish with
          | none => 0
          | some ings => recipeQuantity ings name * pc)).sum := by
  induction dishes generalizing st with
  | nil => simp
  | cons d tl ih =>
    rw [List.foldl_cons, ih]
    simp only [List.map_cons, List.sum_cons]
    cases h : lookupList cb d with
    | none => simp [processDish, h]
    | some ings =>
      simp only [processDish, h, shopQuantity_fold]
      ring

theorem foldDishes_fst_eq (pc : Int) (cb : Catalog) (dishes : List String) (s : ShopList) (m m' : List String) :
    (dishes.foldl (processDish pc cb) (s, m)).1 =
      (dishes.foldl (processDish pc cb) (s, m')).1 := by
  induction dishes generalizing s m m' with
  | nil => rfl
  | cons d tl ih =>
    simp only [List.foldl_cons]
    cases h : lookupList cb d with
    | none => simpa [processDish, h] using ih s (m ++ [d]) (m' ++ [d])
    | some ings => simpa [processDish, h] using ih _ m m'

theorem foldDishes_snd (pc : Int) (cb : Catalog) (dishes : List String) (st : ShopList × List String) :
    (dishes.foldl (processDish pc cb) st).2 =
      st.2 ++ dishes.filter (fun d => (lookupList cb d).isNone) := by
  induction dishes generalizing st with
  | nil => simp
  | cons d tl ih =>
    rw [List.foldl_cons, ih]
    cases h : lookupList cb d with
    | none => simp [processDish, h, List.filter_cons]
    | some ings => simp [processDish, h, List.filter_cons]

theorem foldDishes_fst_filter (pc : Int) (cb : Catalog) (dishes : List String) (st : ShopList × List String) :
    (dishes.foldl (processDish pc cb) st).1 =
      ((dishes.filter (fun d => (lookupList cb d).isSome)).foldl (processDish pc cb) st).1 := by
  induction dishes generalizing st with
  | nil => rfl
  | cons d tl ih =>
    simp only [List.foldl_cons, List.filter_cons]
    cases h : lookupList cb d with
    | none =>
      have hstep : processDish pc cb st d = (st.1, st.2 ++ [d]) := by
        simp [processDish, h]
      rw [hstep]
      simp only [h, Option.isSome_none, Bool.false_eq_true, if_false]
      calc (tl.foldl (processDish pc cb) (st.1, st.2 ++ [d])).1
          = (tl.foldl (processDish pc cb) (st.1, st.2)).1 :=
            foldDishes_fst_eq pc cb tl st.1 (st.2 ++ [d]) st.2
        _ = ((tl.filter (fun d => (lookupList cb d).isSome)).foldl (processDish pc cb) (st.1, st.2)).1 := by
            rw [ih (st.1, st.2)]
    | some ings =>
      simp only [h, Option.isSome_some, if_true]
      rw [List.foldl_cons]
      exact ih (processDish pc cb st d)

/-! ### Lemmas about the parser -/

theorem parseIngredients_error_dish (dish : String) (n : Nat) :
    ∀ (stream : List String) (e : FormatError),
      parseIngredients dish n stream = .error e → e.dishName = dish := by
  induction n with
  | zero =>
    intro stream e h
    simp [parseIngredients] at h
  | succ m ih =>
    intro stream e h
    cases stream with
    | nil =>
      have hstep : parseIngredients dish (m + 1) [] = .error (.missingIngredient dish) := rfl
      rw [hstep] at h
      cases h
      rfl
    | cons line rest =>
      simp only [parseIngredients, readline] at h
      by_cases hline : pyStrip line = ""
      · rw [if_pos hline] at h
        cases h
        rfl
      · rw [if_neg hline] at h
        rcases hsp : pySplit " | " (pyStrip line) with _ | ⟨a, _ | ⟨b, _ | ⟨c, _ | _⟩⟩⟩ <;>
          rw [hsp] at h
        · cases h; rfl
        · cases h; rfl
        · cases h; rfl
        · dsimp only [] at h
          cases hq : parseIntPy b with
          | none => rw [hq] at h; cases h; rfl
          | some q =>
            rw [hq] at h
            cases hrec : parseIngredients dish m rest with
            | error e2 =>
              rw [hrec] at h
              cases h
              exact ih rest e hrec
            | ok p =>
              rw [hrec] at h
              cases h
        · cases h; rfl

theorem parseIngredients_short (dish : String) (n : Nat) :
    ∀ (stream : List String), stream.length < n →
      ∃ e, parseIngredients dish n stream = .error e := by
  induction n with
  | zero =>
    intro stream h
    exact absurd h (Nat.not_lt_zero _)
  | succ m ih =>
    intro stream h
    cases stream with
    | nil => exact ⟨.missingIngredient dish, rfl⟩
    | cons line rest =>
      simp only [parseIngredients, readline]
      by_cases hline : pyStrip line = ""
      · rw [if_pos hline]
        exact ⟨.missingIngredient dish, rfl⟩
      · rw [if_neg hline]
        rcases hsp : pySplit " | " (pyStrip line) with _ | ⟨a, _ | ⟨b, _ | ⟨c, _ | _⟩⟩⟩
        · exact ⟨.badFormat dish (pyStrip line), rfl⟩
        · exact ⟨.badFormat dish (pyStrip line), rfl⟩
        · exact ⟨.badFormat dish (pyStrip line), rfl⟩
        · dsimp only []
          cases hq : parseIntPy b with
          | none => exact ⟨.badIngredientQuantity a dish, rfl⟩
          | some q =>
            have hlen : rest.length < m := by
              simpa [List.length_cons, Nat.succ_lt_succ_iff] using h
            obtain ⟨e, he⟩ := ih rest hlen
            rw [he]
            exact ⟨e, rfl⟩
        · exact ⟨.badFormat dish (pyStrip line), rfl⟩

theorem readLoop_error_acc (fuel : Nat) :
    ∀ (acc acc' : Catalog) (s : List String) (e : FormatError),
      readLoop fuel acc s = .error e → readLoop fuel acc' s = .error e := by
  induction fuel with
  | zero =>
    intro acc acc' s e h
    simp [readLoop] at h
  | succ f ih =>
    intro acc acc' s e h
    cases s with
    | nil => simp [readLoop] at h
    | cons line rest =>
      simp only [readLoop] at h ⊢
      by_cases hd : pyStrip line = ""
      · rw [if_pos hd] at h
        exact Except.noConfusion h
      · rw [if_neg hd] at h ⊢
        cases rest with
        | nil => exact h
        | cons countLine rest2 =>
          dsimp only [] at h ⊢
          cases hp : parseIntPy countLine with
          | none => rw [hp] at h; exact h
          | some k =>
            rw [hp] at h
            dsimp only [] at h ⊢
            cases hpi : parseIngredients (pyStrip line) k.toNat rest2 with
            | error e2 => rw [hpi] at h; exact h
            | ok p =>
              rw [hpi] at h
              dsimp only [] at h ⊢
              obtain ⟨ings, rest3⟩ := p
              exact ih _ _ _ _ h

theorem parseIngredients_quantity_source (dish : String) (n : Nat) :
    ∀ (stream : List String) (ings : List Ingredient) (rest : List String),
      parseIngredients dish n stream = .ok (ings, rest) →
      ∀ i ∈ ings, ∃ s, parseIntPy s = some i.quantity := by
  induction n with
  | zero =>
    intro stream ings rest h i hi
    simp only [parseIngredients] at h
    cases h
    exact absurd hi (List.not_mem_nil i)
  | succ m ih =>
    intro stream ings rest h i hi
    cases stream with
    | nil =>
      have hstep : parseIngredients dish (m + 1) [] = .error (.missingIngredient dish) := rfl
      rw [hstep] at h
      exact Except.noConfusion h
    | cons line rest0 =>
      simp only [parseIngredients, readline] at h
      by_cases hline : pyStrip line = ""
      · rw [if_pos hline] at h
        exact Except.noConfusion h
      · rw [if_neg hline] at h
        rcases hsp : pySplit " | " (pyStrip line) with _ | ⟨a, _ | ⟨b, _ | ⟨c, _ | d⟩⟩⟩ <;>
          rw [hsp] at h
        · exact Except.noConfusion h
        · exact Except.noConfusion h
        · exact Except.noConfusion h
        · dsimp only [] at h
          cases hq : parseIntPy b with
          | none => rw [hq] at h; exact Except.noConfusion h
          | some q =>
            rw [hq] at h
            dsimp only [] at h
            cases hrec : parseIngredients dish m rest0 with
            | error e2 => rw [hrec] at h; exact Except.noConfusion h
            | ok p =>
              rw [hrec] at h
              obtain ⟨ings2, rest2⟩ := p
              dsimp only [] at h
              cases h
              rcases List.mem_cons.mp hi with hih | hit
              · subst hih
                exact ⟨b, hq⟩
              · exact ih rest0 ings2 rest hrec i hit
        · exact Except.noConfusion h

/-! ### Lemmas about the merger -/

theorem filter_insertionSort_len (files : List (String × List String)) (n : Nat) :
    (List.insertionSort lenLe files).filter (fun fr => fr.2.length == n) =
      files.filter (fun fr => fr.2.length == n) := by
  have hall : ∀ fr ∈ files.filter (fun fr : String × List String => fr.2.length == n),
      fr.2.length = n := by
    intro fr hfr
    have hb := (List.mem_filter.mp hfr).2
    simpa using hb
  have hpair : (files.filter (fun fr : String × List String => fr.2.length == n)).Pairwise lenLe :=
    List.pairwise_of_forall_mem_list (fun a ha b hb => by
      unfold lenLe
      rw [hall a ha, hall b hb])
  have hsub : (files.filter (fun fr : String × List String => fr.2.length == n)).Sublist
      (List.insertionSort lenLe files) :=
    List.sublist_insertionSort hpair (List.filter_sublist files)
  have hsub2 : (files.filter (fun fr : String × List String => fr.2.length == n)).Sublist
      ((List.insertionSort lenLe files).filter (fun fr => fr.2.length == n)) := by
    have hs := List.Sublist.filter (fun fr : String × List String => fr.2.length == n) hsub
    rwa [List.filter_eq_self.mpr (fun a ha => (List.mem_filter.mp ha).2)] at hs
  have hperm : (((List.insertionSort lenLe files).filter
      (fun fr => fr.2.length == n))).Perm (files.filter (fun fr => fr.2.length == n)) :=
    List.Perm.filter _ (List.perm_insertionSort lenLe files)
  exact (List.Sublist.eq_of_length hsub2 hperm.length_eq.symm).symm

theorem merge_files_ok_render (fs : FS) (d o : String) (out : List String) (files : List (String × List String)) :
    merge_files fs d o = .ok out →
    collectFiles fs d (fs.listing d) = .ok files →
    out = renderBlocks (List.insertionSort lenLe files) := by
  intro hm hc
  unfold merge_files mergeCore at hm
  by_cases hd : fs.dirExists d = true
  · rw [if_pos hd] at hm
    simp only [hc] at hm
    cases hw : fs.writeResult o with
    | some e =>
      simp only [hw] at hm
      cases e <;> exact Except.noConfusion hm
    | none =>
      simp only [hw] at hm
      exact (Except.ok.inj hm).symm
  · rw [if_neg hd] at hm
    exact Except.noConfusion hm

/-! ### Lemmas about the heap-explicit aggregator -/

theorem lookupList_mem {β : Type} (l : List (String × β)) (k : String) (v : β) :
    lookupList l k = some v → (k, v) ∈ l := by
  induction l with
  | nil => intro h; simp [lookupList] at h
  | cons kv rest ih =>
    obtain ⟨k2, v2⟩ := kv
    intro h
    simp only [lookupList] at h
    by_cases hk : k2 = k
    · rw [if_pos hk] at h
      cases h
      exact List.mem_cons.mpr (Or.inl (by rw [hk]))
    · rw [if_neg hk] at h
      exact List.mem_cons.mpr (Or.inr (ih h))

theorem addIngredientRef_frame (pc : Int) (h0 : Heap) (st : Heap × ShopRef) (a : Nat) :
    h0.next ≤ st.1.next →
    (∀ x, x < h0.next → st.1.mem x = h0.mem x) →
    (∀ p ∈ st.2, h0.next ≤ p.2) →
    h0.next ≤ (addIngredientRef pc st a).1.next ∧
      (∀ x, x < h0.next → (addIngredientRef pc st a).1.mem x = h0.mem x) ∧
      (∀ p ∈ (addIngredientRef pc st a).2, h0.next ≤ p.2) := by
  intro h1 h2 h3
  cases hl : lookupList st.2 (st.1.mem a).iname with
  | some ea =>
    have hred : addIngredientRef pc st a =
        (st.1.write ea ⟨(st.1.mem ea).iname,
            (st.1.mem ea).quantity + (st.1.mem a).quantity * pc,
            (st.1.mem ea).measure⟩, st.2) := by
      simp only [addIngredientRef, hl]
    have hea : h0.next ≤ ea := h3 ((st.1.mem a).iname, ea) (lookupList_mem st.2 _ ea hl)
    rw [hred]
    refine ⟨h1, ?_, h3⟩
    intro x hx
    show (if x = ea then _ else st.1.mem x) = h0.mem x
    rw [if_neg (fun hc : x = ea => absurd (hc ▸ hx) (Nat.not_lt.mpr hea))]
    exact h2 x hx
  | none =>
    have hred : addIngredientRef pc st a =
        (⟨fun x => if x = st.1.next then
            ⟨(st.1.mem a).iname, (st.1.mem a).quantity * pc, (st.1.mem a).measure⟩
          else st.1.mem x, st.1.next + 1⟩,
         st.2 ++ [((st.1.mem a).iname, st.1.next)]) := by
      simp only [addIngredientRef, hl, Heap.alloc]
    rw [hred]
    refine ⟨Nat.le_trans h1 (Nat.le_succ st.1.next), ?_, ?_⟩
    · intro x hx
      show (if x = st.1.next then _ else st.1.mem x) = h0.mem x
      rw [if_neg (fun hc : x = st.1.next =>
        absurd (hc ▸ hx) (Nat.not_lt.mpr h1))]
      exact h2 x hx
    · intro p hp
      rcases List.mem_append.mp hp with hold | hnew
      · exact h3 p hold
      · rcases List.mem_singleton.mp hnew with rfl
        exact h1

theorem foldIngredientsRef_frame (pc : Int) (h0 : Heap) :
    ∀ (addrs : List Nat) (st : Heap × ShopRef),
      h0.next ≤ st.1.next →
      (∀ x, x < h0.next → st.1.mem x = h0.mem x) →
      (∀ p ∈ st.2, h0.next ≤ p.2) →
      h0.next ≤ (addrs.foldl (addIngredientRef pc) st).1.next ∧
        (∀ x, x < h0.next → (addrs.foldl (addIngredientRef pc) st).1.mem x = h0.mem x) ∧
        (∀ p ∈ (addrs.foldl (addIngredientRef pc) st).2, h0.next ≤ p.2) := by
  intro addrs
  induction addrs with
  | nil => intro st h1 h2 h3; exact ⟨h1, h2, h3⟩
  | cons a tl ih =>
    intro st h1 h2 h3
    rw [List.foldl_cons]
    obtain ⟨g1, g2, g3⟩ := addIngredientRef_frame pc h0 st a h1 h2 h3
    exact ih (addIngredientRef pc st a) g1 g2 g3

theorem foldDishesRef_frame (pc : Int) (cb : CatalogRef) (h0 : Heap) :
    ∀ (dishes : List String) (st : Heap × ShopRef),
      h0.next ≤ st.1.next →
      (∀ x, x < h0.next → st.1.mem x = h0.mem x) →
      (∀ p ∈ st.2, h0.next ≤ p.2) →
      h0.next ≤ (dishes.foldl (processDishRef pc cb) st).1.next ∧
        (∀ x, x < h0.next → (dishes.foldl (processDishRef pc cb) st).1.mem x = h0.mem x) ∧
        (∀ p ∈ (dishes.foldl (processDishRef pc cb) st).2, h0.next ≤ p.2) := by
  intro dishes
  induction dishes with
  | nil => intro st h1 h2 h3; exact ⟨h1, h2, h3⟩
  | cons d tl ih =>
    intro st h1 h2 h3
    rw [List.foldl_cons]
    have hstep : h0.next ≤ (processDishRef pc cb st d).1.next ∧
        (∀ x, x < h0.next → (processDishRef pc cb st d).1.mem x = h0.mem x) ∧
        (∀ p ∈ (processDishRef pc cb st d).2, h0.next ≤ p.2) := by
      unfold processDishRef
      cases hl : lookupList cb d with
      | none => exact ⟨h1, h2, h3⟩
      | some addrs => exact foldIngredientsRef_frame pc h0 addrs st h1 h2 h3
    exact ih (processDishRef pc cb st d) hstep.1 hstep.2.1 hstep.2.2

/-! ### The claims -/

/-- C1: for every catalog, requested dish list and person count, the
quantity recorded in the shopping list for each ingredient name equals
the sum, over all requested dishes found in the catalog, of that
recipe's total quantity for that name multiplied by the person count. -/
theorem aggregated_quantity_invariant (dishes : List String) (person_count : Int) (cook_book : Catalog) (name : String) :
    shopQuantity (get_shop_list_by_dishes dishes person_count cook_book).1 name =
      (dishes.map (fun dish =>
        match lookupList cook_book dish with
        | none => 0
        | some ings => recipeQuantity ings name * person_count)).sum := by
  unfold get_shop_list_by_dishes
  rw [shopQuantity_foldDishes]
  simp [shopQuantity, lookupList]

/-- C2: aggregating dishes A and B, both containing salt, for 2 persons
yields exactly one salt entry of quantity 2*2 + 3*2 = 10 with the
measure of the first occurrence, and no diagnostics. -/
theorem aggregate_shared_ingredient_example :
    get_shop_list_by_dishes ["A", "B"] 2
        [("A", [⟨"salt", 2, "g"⟩]), ("B", [⟨"salt", 3, "g"⟩])] =
      ([("salt", ⟨"g", 10⟩)], []) := by
  decide

/-- C3: inside a dish block, every parse error names the offending dish;
an ingredient line that does not split into exactly 3 fields on the
separator raises the bad-format error for that dish; a quantity field
that is not an integer raises the bad-quantity error naming ingredient
and dish; a stream shorter than the declared count raises an error; and
any such error propagates through the dish loop, so the parser returns
the error and no catalog. -/
theorem ingredient_line_errors (dish : String) (n : Nat) (stream : List String) :
    (∀ e, parseIngredients dish n stream = .error e → e.dishName = dish) ∧
    (∀ m line rest, n = m + 1 → stream = line :: rest → pyStrip line ≠ "" →
      (pySplit " | " (pyStrip line)).length ≠ 3 →
      parseIngredients dish n stream = .error (.badFormat dish (pyStrip line))) ∧
    (∀ m line rest iname qstr meas, n = m + 1 → stream = line :: rest →
      pyStrip line ≠ "" →
      pySplit " | " (pyStrip line) = [iname, qstr, meas] → parseIntPy qstr = none →
      parseIngredients dish n stream = .error (.badIngredientQuantity iname dish)) ∧
    (stream.length < n → ∃ e, parseIngredients dish n stream = .error e) ∧
    (∀ fuel acc countLine k e, pyStrip dish = dish → dish ≠ "" →
      parseIntPy countLine = some k →
      parseIngredients dish k.toNat stream = .error e →
      readLoop (fuel + 1) acc (dish :: countLine :: stream) = .error e) := by
  refine ⟨parseIngredients_error_dish dish n stream, ?_, ?_, parseIngredients_short dish n stream, ?_⟩
  · intro m line rest hn hs hline hlen
    subst hn
    subst hs
    simp only [parseIngredients, readline]
    rw [if_neg hline]
    rcases hsp : pySplit " | " (pyStrip line) with _ | ⟨a, _ | ⟨b, _ | ⟨c, _ | d⟩⟩⟩
    · rfl
    · rfl
    · rfl
    · rw [hsp] at hlen
      exact absurd rfl hlen
    · rfl
  · intro m line rest iname qstr meas hn hs hline hsp hq
    subst hn
    subst hs
    simp only [parseIngredients, readline]
    rw [if_neg hline]
    simp only [hsp, hq]
  · intro fuel acc countLine k e htrim hdish hcount herr
    simp only [readLoop]
    rw [htrim, if_neg hdish]
    simp only [hcount, herr]

/-- C3 witness: a 2-field line, a bad quantity field and a truncated
block each raise the named error, and the error surfaces from the dish
loop. -/
theorem ingredient_line_errors_witness :
    parseIngredients "d" 1 ["only | two"] = .error (.badFormat "d" "only | two") ∧
    parseIngredients "d" 1 ["i | 5x | g"] = .error (.badIngredientQuantity "i" "d") ∧
    (∃ e, parseIngredients "d" 2 ["i | 5 | g"] = .error e) ∧
    readLoop 7 [] ["d", "1", "only | two"] = .error (.badFormat "d" "only | two") := by
  refine ⟨?_, ?_, ?_, ?_⟩
  · exact (ingredient_line_errors "d" 1 ["only | two"]).2.1 0 "only | two" [] rfl rfl
      (by decide) (by decide)
  · exact (ingredient_line_errors "d" 1 ["i | 5x | g"]).2.2.1 0 "i | 5x | g" []
      "i" "5x" "g" rfl rfl (by decide) (by decide) (by decide)
  · exact (ingredient_line_errors "d" 2 ["i | 5 | g"]).2.2.2.1 (by decide)
  · exact (ingredient_line_errors "d" 1 ["only | two"]).2.2.2.2 6 [] "1" 1
      (.badFormat "d" "only | two") (by decide) (by decide) (by decide)
      ((ingredient_line_errors "d" 1 ["only | two"]).2.1 0 "only | two" [] rfl rfl
        (by decide) (by decide))

/-- C5 counterexample: the quantity field `-5` parses, so `parse`
returns a catalog holding a negative quantity, refuting the claim that
every parsed quantity is at least 0. -/
theorem parsed_quantity_can_be_negative :
    read_cook_book ["d", "1", "i | -5 | g"] = .ok [("d", [⟨"i", -5, "g"⟩])] ∧
      ¬(0 : Int) ≤ -5 := by
  exact ⟨by decide, by decide⟩

/-- C5 amended: every quantity in a catalog returned by the parser is an
integer obtained from the int() parse of a quantity field; no sign check
is applied, so negative quantities appear in returned catalogs. -/
theorem parsed_quantity_unconstrained :
    (∀ dish n stream ings rest,
      parseIngredients dish n stream = .ok (ings, rest) →
      ∀ i ∈ ings, ∃ s, parseIntPy s = some i.quantity) ∧
    read_cook_book ["soup", "1", "pepper | -7 | g"] =
      .ok [("soup", [⟨"pepper", -7, "g"⟩])] :=
  ⟨fun dish n stream ings rest h i hi =>
    parseIngredients_quantity_source dish n stream ings rest h i hi, by decide⟩

/-- C5 witness: applying the amended invariant to a concrete parse. -/
theorem parsed_quantity_unconstrained_witness :
    ∃ s, parseIntPy s = some (-7 : Int) :=
  parsed_quantity_unconstrained.1 "soup" 1 ["pepper | -7 | g"]
    [⟨"pepper", -7, "g"⟩] [] (by decide) ⟨"pepper", -7, "g"⟩ (by decide)

/-- C6: when parsing fails, the same error is produced whatever dishes
were already accumulated — the partial catalog is discarded — and the
parser returns no catalog value. -/
theorem error_returns_no_catalog (s : List String) (e : FormatError) :
    read_cook_book s = .error e →
    (∀ acc, readLoop (s.length + 1) acc s = .error e) ∧
    ∀ cb, read_cook_book s ≠ .ok cb := by
  intro h
  refine ⟨fun acc => readLoop_error_acc (s.length + 1) [] acc s e h, fun cb hc => ?_⟩
  rw [h] at hc
  exact Except.noConfusion hc

/-- C6 witness: a stream whose first dish parses and whose second block
is malformed yields the error, not a one-dish catalog. -/
theorem error_returns_no_catalog_witness :
    readLoop (["Torte", "1", "flour | 200 | g", "", "d", "x"].length + 1)
        [("prior", [])] ["Torte", "1", "flour | 200 | g", "", "d", "x"] =
      .error (.badCount "d") ∧
    ∀ cb, read_cook_book ["Torte", "1", "flour | 200 | g", "", "d", "x"] ≠ .ok cb := by
  have h := error_returns_no_catalog ["Torte", "1", "flour | 200 | g", "", "d", "x"]
    (.badCount "d") (by decide)
  exact ⟨h.1 [("prior", [])], h.2⟩

/-- C8: missing dishes produce exactly one diagnostic each (in order)
and nothing else: the shopping list is the one computed from the present
dishes alone, and the aggregator is a total function, so no error is
raised. -/
theorem missing_dish_is_nonfatal (dishes : List String) (person_count : Int) (cook_book : Catalog) :
    (get_shop_list_by_dishes dishes person_count cook_book).2 =
      dishes.filter (fun d => (lookupList cook_book d).isNone) ∧
    (get_shop_list_by_dishes dishes person_count cook_book).1 =
      (get_shop_list_by_dishes
        (dishes.filter (fun d => (lookupList cook_book d).isSome))
        person_count cook_book).1 := by
  constructor
  · simpa using foldDishes_snd person_count cook_book dishes ([], [])
  · exact foldDishes_fst_filter person_count cook_book dishes ([], [])

/-- C10: duplicate occurrences of one ingredient name inside a single
dish are merged exactly like occurrences across dishes: the entry's
quantity is the recipe's summed quantity for that name times the person
count, and its measure comes from the first occurrence. -/
theorem duplicate_name_within_dish_merged (dish : String) (ings : List Ingredient) (person_count : Int) (name : String) :
    shopQuantity (get_shop_list_by_dishes [dish] person_count [(dish, ings)]).1 name =
      recipeQuantity ings name * person_count ∧
    shopMeasure (get_shop_list_by_dishes [dish] person_count [(dish, ings)]).1 name =
      firstMeasure ings name := by
  unfold get_shop_list_by_dishes
  simp only [List.foldl_cons, List.foldl_nil]
  have hstep : processDish person_count [(dish, ings)] ([], []) dish =
      (ings.foldl (addIngredient person_count) [], []) := by
    simp [processDish, lookupList]
  rw [hstep]
  constructor
  · rw [shopQuantity_fold]
    simp [shopQuantity, lookupList]
  · rw [shopMeasure_fold]
    simp [shopMeasure, lookupList]

/-- C4 counterexample: with the directory present but the output path's
own directory missing, the write fails with a file-not-found condition
and `merge_files` raises the not-found error naming the input directory
instead of wrapping the failure in the io-error, refuting the claim that
every non-missing-directory failure is wrapped in `IOError`. -/
theorem merge_write_failure_as_not_found :
    badOutputFS.dirExists "files" = true ∧
    badOutputFS.writeResult "missing/out.txt" = some .fileNotFound ∧
    merge_files badOutputFS "files" "missing/out.txt" = .error (.notFound "files") := by
  exact ⟨rfl, rfl, by decide⟩

/-- C4 amended: `merge_files` raises the not-found error when the
directory does not exist, and also whenever any file operation inside
the call fails with a file-not-found condition (such as the output
path's directory missing); every other failure is wrapped in the
io-error; no other kind of error is raised. -/
theorem merge_error_taxonomy (fs : FS) (d o : String) :
    (fs.dirExists d = false → merge_files fs d o = .error (.notFound d)) ∧
    (∀ e, merge_files fs d o = .error e →
      (e = .notFound d ∧ mergeCore fs d o = .error .fileNotFound) ∨
      (∃ m, e = .ioError m ∧ mergeCore fs d o = .error (.other m))) := by
  constructor
  · intro hd
    unfold merge_files mergeCore
    rw [if_neg (by rw [hd]; exact Bool.false_ne_true)]
  · intro e hm
    unfold merge_files at hm
    cases hc : mergeCore fs d o with
    | ok out => rw [hc] at hm; exact Except.noConfusion hm
    | error f =>
      rw [hc] at hm
      cases f with
      | fileNotFound =>
        exact Or.inl ⟨(Except.error.inj hm).symm, rfl⟩
      | other m =>
        exact Or.inr ⟨m, (Except.error.inj hm).symm, rfl⟩

/-- C4 witness: a missing directory produces the not-found error, and
the counterexample file system's write failure is classified by the
taxonomy as a file-not-found failure. -/
theorem merge_error_taxonomy_witness :
    merge_files badOutputFS "nope" "out" = .error (.notFound "nope") ∧
    ((MergeError.notFound "files" = .notFound "files" ∧
        mergeCore badOutputFS "files" "missing/out.txt" = .error .fileNotFound) ∨
      (∃ m, MergeError.notFound "files" = .ioError m ∧
        mergeCore badOutputFS "files" "missing/out.txt" = .error (.other m))) := by
  constructor
  · exact (merge_error_taxonomy badOutputFS "nope" "out").1 (by decide)
  · exact (merge_error_taxonomy badOutputFS "files" "missing/out.txt").2
      (.notFound "files") (by decide)

/-- C7: on success the merged output is the rendering — filename line,
line-count line, then the lines verbatim — of the collected records
sorted ascending by line count with a stable sort (a permutation, sorted
by count, preserving the enumeration order inside every count class);
concretely, three files with 5, 1 and 3 lines come out in count order
1, 3, 5. -/
theorem merge_output_sorted (fs : FS) (d o : String) :
    (∀ out files, merge_files fs d o = .ok out →
      collectFiles fs d (fs.listing d) = .ok files →
      out = renderBlocks (List.insertionSort lenLe files) ∧
      List.Sorted lenLe (List.insertionSort lenLe files) ∧
      (List.insertionSort lenLe files).Perm files ∧
      (∀ n, (List.insertionSort lenLe files).filter (fun fr => fr.2.length == n) =
        files.filter (fun fr => fr.2.length == n))) ∧
    merge_files demoFS "files" "merged.txt" =
      .ok ["one.txt", "1", "o1", "mid.txt", "3", "m1", "m2", "m3",
           "big.txt", "5", "b1", "b2", "b3", "b4", "b5"] := by
  constructor
  · intro out files hm hc
    exact ⟨merge_files_ok_render fs d o out files hm hc,
      List.sorted_insertionSort lenLe files,
      List.perm_insertionSort lenLe files,
      fun n => filter_insertionSort_len files n⟩
  · decide

/-- C7 witness: the sorting facts instantiated on the three-file
directory. -/
theorem merge_output_sorted_witness :
    ["one.txt", "1", "o1", "mid.txt", "3", "m1", "m2", "m3",
        "big.txt", "5", "b1", "b2", "b3", "b4", "b5"] =
      renderBlocks (List.insertionSort lenLe
        [("big.txt", ["b1", "b2", "b3", "b4", "b5"]), ("one.txt", ["o1"]),
         ("mid.txt", ["m1", "m2", "m3"])]) ∧
    List.Sorted lenLe (List.insertionSort lenLe
      [("big.txt", ["b1", "b2", "b3", "b4", "b5"]), ("one.txt", ["o1"]),
       ("mid.txt", ["m1", "m2", "m3"])]) := by
  have h := (merge_output_sorted demoFS "files" "merged.txt").1
    ["one.txt", "1", "o1", "mid.txt", "3", "m1", "m2", "m3",
     "big.txt", "5", "b1", "b2", "b3", "b4", "b5"]
    [("big.txt", ["b1", "b2", "b3", "b4", "b5"]), ("one.txt", ["o1"]),
     ("mid.txt", ["m1", "m2", "m3"])]
    (by decide) (by decide)
  exact ⟨h.1, h.2.1⟩

/-- C9: the heap-explicit aggregator never writes to any address
allocated before the call — in particular every ingredient record of
the catalog is identical before and after — because shopping-list
entries are freshly allocated records, never aliases of catalog
records: every shop-list address is at or above the old allocation
limit. -/
theorem aggregator_preserves_catalog (dishes : List String) (person_count : Int) (cb : CatalogRef) (h : Heap) :
    (∀ d addrs, lookupList cb d = some addrs → ∀ a ∈ addrs, a < h.next) →
    (∀ d addrs, lookupList cb d = some addrs → ∀ a ∈ addrs,
      (get_shop_list_ref dishes person_count cb h).1.mem a = h.mem a) ∧
    (∀ p ∈ (get_shop_list_ref dishes person_count cb h).2, h.next ≤ p.2) := by
  intro hvalid
  have main := foldDishesRef_frame person_count cb h dishes (h, [])
    (Nat.le_refl h.next) (fun x _ => rfl) (fun p hp => absurd hp (List.not_mem_nil p))
  exact ⟨fun d addrs hd a ha => main.2.1 a (hvalid d addrs hd a ha), main.2.2⟩

/-- C9 witness: aggregating one dish whose ingredient record lives at
address 0 leaves that record untouched. -/
theorem aggregator_preserves_catalog_witness :
    (get_shop_list_ref ["A"] 2 [("A", [0])] demoHeap).1.mem 0 = demoHeap.mem 0 := by
  have hvalid : ∀ d addrs, lookupList [("A", [0])] d = some addrs →
      ∀ a ∈ addrs, a < demoHeap.next := by
    intro d addrs hd a ha
    simp only [lookupList] at hd
    by_cases hda : "A" = d
    · rw [if_pos hda] at hd
      cases hd
      rcases List.mem_singleton.mp ha with rfl
      decide
    · rw [if_neg hda] at hd
      exact Option.noConfusion hd
  exact (aggregator_preserves_catalog ["A"] 2 [("A", [0])] demoHeap hvalid).1
    "A" [0] (by decide) 0 (List.mem_singleton.mpr rfl)

end CookBook
